import Mathlib

/-!
Shallow embedding of `ptd_header_parser.py`.

The file models, faithfully to the Python source:
 * `format_string`   (string sanitization, lines 72-77)
 * `assign_type`     (value normalization, lines 46-69) together with the
   Python builtins `int(...)` / `float(...)` string-parsing semantics,
 * `get_seq_data`    (recursive sequence flattening, lines 80-101)
 * `parse_header`    (header flattening, lines 104-133)
 * `ptd_reader`      (trailer location, lines 16-43)
 * the gear entry flow (lines 176-192).

Decoded dataset values (delivered by pydicom) are modelled as the sum type
`DVal`; a decoded dataset is an association list of keyword/value pairs,
iterated in list order (pydicom `dir()` yields each element keyword once;
the order is irrelevant to every statement below).  Normalized output values
are the sum type `PyVal`; Python dicts over string keys are association
lists with in-place update on existing keys.  Python floats are modelled as
exact decimal values (`PyFloat`), which is faithful for every statement
below since none depends on binary rounding.
-/

/-- Python `str.strip()` whitespace, restricted to ASCII. -/
def pySpace (c : Char) : Bool :=
  c.toNat = 32 || c.toNat = 9 || c.toNat = 10 || c.toNat = 11 || c.toNat = 12 || c.toNat = 13

/-- Strip leading and trailing whitespace (Python `str.strip()`). -/
def stripWs (l : List Char) : List Char :=
  ((l.dropWhile pySpace).reverse.dropWhile pySpace).reverse

/-- Tail of a Python digit group: digits with single underscores allowed
between digits (`int("1_0")` is legal, `int("1__0")`, `int("1_")` are not). -/
def digitsTail : List Char → Bool
  | [] => true
  | '_' :: c :: rest => c.isDigit && digitsTail rest
  | c :: rest => c.isDigit && digitsTail rest

/-- A legal (nonempty) Python digit group: leading digit, then `digitsTail`. -/
def digitsOk : List Char → Bool
  | [] => false
  | c :: rest => c.isDigit && digitsTail rest

/-- Numeric value of a digit group, underscores removed. -/
def natOfDigits (l : List Char) : Nat :=
  (l.filter (fun c => c != '_')).foldl (fun a c => a * 10 + (c.toNat - 48)) 0

/-- Python `int(s)` on a string: strip whitespace, optional sign, decimal
digit group.  `none` models the `ValueError` that `assign_type` catches. -/
def int_of_string (s : String) : Option Int :=
  match stripWs s.toList with
  | '+' :: rest => if digitsOk rest then some (natOfDigits rest) else none
  | '-' :: rest => if digitsOk rest then some (-(natOfDigits rest : Int)) else none
  | l => if digitsOk l then some (natOfDigits l) else none

/-- A Python float value: exact decimal, infinity, or NaN. -/
inductive PyFloat where
  | finite (q : ℚ)
  | inf (neg : Bool)
  | nan
deriving DecidableEq, Repr

/-- The decimal part of Python `float(s)`: `intpart [. fracpart] [e exp]`,
at least one mantissa digit, underscore rules as in `digitsOk`. -/
def floatDecimal (neg : Bool) (body : List Char) : Option PyFloat :=
  let mant := body.takeWhile (fun c => c != 'e' && c != 'E')
  let rest := body.dropWhile (fun c => c != 'e' && c != 'E')
  let ip := mant.takeWhile (fun c => c != '.')
  let dotfrac := mant.dropWhile (fun c => c != '.')
  let fp := dotfrac.drop 1
  let mantOk := (ip.isEmpty || digitsOk ip) && (fp.isEmpty || digitsOk fp) &&
    (!ip.isEmpty || !fp.isEmpty) && (dotfrac.isEmpty || dotfrac.take 1 = ['.'])
  let expOk : Bool × Int :=
    match rest with
    | [] => (true, 0)
    | _ :: '+' :: ds => (digitsOk ds, (natOfDigits ds : Int))
    | _ :: '-' :: ds => (digitsOk ds, -(natOfDigits ds : Int))
    | _ :: ds => (digitsOk ds, (natOfDigits ds : Int))
  if mantOk && expOk.1 then
    let q : ℚ := ((natOfDigits ip : ℚ) + (natOfDigits fp : ℚ) / (10 : ℚ) ^ ((fp.filter (fun c => c != '_')).length)) * (10 : ℚ) ^ (expOk.2)
    some (.finite (if neg then -q else q))
  else none

/-- Python `float(s)` on a string: strip whitespace, optional sign, then
either `inf`/`infinity`/`nan` (case-insensitive) or a decimal literal.
`none` models the `ValueError` that `assign_type` catches. -/
def float_of_string (s : String) : Option PyFloat :=
  let l := stripWs s.toList
  let (neg, body) :=
    match l with
    | '+' :: r => (false, r)
    | '-' :: r => (true, r)
    | _ => (false, l)
  let low := body.map Char.toLower
  if low = "inf".toList || low = "infinity".toList then some (.inf neg)
  else if low = "nan".toList then some .nan
  else floatDecimal neg body

/-- Membership in Python's `string.printable` (0x20-0x7e plus
`\t\n\r\x0b\x0c`). -/
def printableChar (c : Char) : Bool :=
  (32 ≤ c.toNat && c.toNat ≤ 126) ||
    (c.toNat = 9 || c.toNat = 10 || c.toNat = 11 || c.toNat = 12 || c.toNat = 13)

/-- `format_string` (source lines 72-77): drop non-ASCII characters, keep
only `string.printable` characters; a result that is empty or exactly `"?"`
becomes `None` (modelled as `none`). -/
def format_string (in_string : String) : Option String :=
  let formatted := (in_string.toList.filter (fun c => c.toNat ≤ 127)).filter printableChar
  let f := String.mk formatted
  if (f.length = 1 ∧ f = "?") ∨ f.length = 0 then none else some f

/-- A decoded dataset value as seen by the Python code.  `pystr` is a plain
`str`; `uid` is `pydicom.UID.UID` (a `str` subclass, so `type(v) == str` is
false for it); `person` is a PersonName object carrying its `str()` form;
`pyint` is a plain integer-typed value carrying the integer (its `str()`
form is the decimal literal); `multi` is a `list`/`MultiValue` of strings;
`seq` is a `pydicom.sequence.Sequence` of sub-datasets; `pynone` is `None`. -/
inductive DVal where
  | pystr (s : String)
  | pyint (n : Int)
  | person (s : String)
  | uid (s : String)
  | multi (xs : List String)
  | seq (groups : List (List (String × DVal)))
  | pynone
deriving Repr

/-- A decoded dataset: keyword/value association list. -/
abbrev Dataset := List (String × DVal)

/-- A normalized output value. `listStr` entries are `Option String` because
`format_string` can return `None` for a kept element (source line 60 keeps
every element whose *original* string is nonempty). `dict` is a nested
mapping from a flattened sequence. -/
inductive PyVal where
  | int (n : Int)
  | float (f : PyFloat)
  | str (s : String)
  | listInt (xs : List Int)
  | listFloat (xs : List PyFloat)
  | listStr (xs : List (Option String))
  | dict (d : List (String × PyVal))
deriving Repr

/-- A normalized header mapping (Python dict with string keys). -/
abbrev Dict := List (String × PyVal)

/-- Python `str(value)` for the scalar values reaching the final branch of
`assign_type` (line 62).  `multi` and `seq` never reach that branch
(`multi` is matched earlier; sequences are filtered by both callers). -/
def pyStr : DVal → String
  | .pystr s => s
  | .uid s => s
  | .person s => s
  | .pyint n => toString n
  | .pynone => "None"
  | .multi _ => ""
  | .seq _ => ""

/-- `assign_type` (source lines 46-69): PersonName values are sanitized;
lists try all-int, then all-float, then per-element `format_string` keeping
exactly the elements whose original string is nonempty; all other values
are stringified and tried as int, then float, then sanitized string.
`none` models a `None` return. -/
def assign_type (s : DVal) : Option PyVal :=
  match s with
  | .person str => (format_string str).map .str
  | .multi xs =>
      match xs.mapM int_of_string with
      | some ns => some (.listInt ns)
      | none =>
        match xs.mapM float_of_string with
        | some fs => some (.listFloat fs)
        | none => some (.listStr ((xs.filter (fun x => x.length > 0)).map format_string))
  | v =>
      let str := pyStr v
      match int_of_string str with
      | some n => some (.int n)
      | none =>
        match float_of_string str with
        | some f => some (.float f)
        | none => (format_string str).map .str

/-- Lookup in a Python dict / dataset modelled as an association list
(first matching key; keys are unique in every dict the code builds). -/
def dlookup {α : Type} (k : String) : List (String × α) → Option α
  | [] => none
  | (k', v) :: rest => if k' = k then some v else dlookup k rest

/-- Python `d[k] = v`: update in place if `k` is present, else append.
(Keys are unique in every dict the code builds, so updating the first
occurrence models Python exactly.) -/
def dictInsert {α : Type} (d : List (String × α)) (k : String) (v : α) : List (String × α) :=
  match d with
  | [] => [(k, v)]
  | (k', w) :: rest => if k' = k then (k, v) :: rest else (k', w) :: dictInsert rest k v

/-- Python truthiness of a decoded value (`if value`): empty strings,
empty collections, zero and `None` are falsy. -/
def dvalTruthy : DVal → Bool
  | .pystr s => !s.isEmpty
  | .pyint n => n != 0
  | .person s => !s.isEmpty
  | .uid s => !s.isEmpty
  | .multi xs => !xs.isEmpty
  | .seq gs => !gs.isEmpty
  | .pynone => false

/-- Python `value == 0` on a decoded value: true only for numeric zero. -/
def dvalEqZero : DVal → Bool
  | .pyint n => n == 0
  | _ => false

/-- Python truthiness of a normalized value (`if formatted` / `if s_val`):
`0`, `0.0`, `""` and empty lists/dicts are falsy. -/
def pyTruthy : PyVal → Bool
  | .int n => n != 0
  | .float (.finite q) => q != 0
  | .float _ => true
  | .str s => !s.isEmpty
  | .listInt xs => !xs.isEmpty
  | .listFloat xs => !xs.isEmpty
  | .listStr xs => !xs.isEmpty
  | .dict d => !d.isEmpty

/-- `type(v) is pydicom.UID.UID`. -/
def isUid : DVal → Bool
  | .uid _ => true
  | _ => false

/-- `type(v) == str` (false for the `str` subclass `UID`). -/
def isStr : DVal → Bool
  | .pystr _ => true
  | _ => false

/-- `type(v) == pydicom.sequence.Sequence`. -/
def isSeq : DVal → Bool
  | .seq _ => true
  | _ => false

/-- The string carried by a plain `str` value. -/
def strO : DVal → String
  | .pystr s => s
  | _ => ""

/-- The fixed denylist of `parse_header` (source lines 107-108). -/
def exclude_tags : List String :=
  ["[Unknown]", "PixelData", "Pixel Data", "[User defined data]",
   "[Protocol Data Block (compressed)]", "[Histogram tables]", "[Unique image iden]"]

mutual

/-- `get_seq_data` (source lines 80-101): flatten a sequence of sub-datasets
into one dict, starting from an empty `seq_dict`. -/
def get_seq_data (sequence : List Dataset) (ignore_keys : List String) : Dict :=
  seqLoop sequence ignore_keys []
termination_by (sizeOf sequence, 1)

/-- The outer `for seq in sequence` loop of `get_seq_data`, threading
`seq_dict` across groups. -/
def seqLoop (sequence : List Dataset) (ignore_keys : List String) (seq_dict : Dict) : Dict :=
  match sequence with
  | [] => seq_dict
  | seq :: rest => seqLoop rest ignore_keys (keyLoop seq (seq.map Prod.fst) ignore_keys seq_dict)
termination_by (sizeOf sequence, 0)

/-- The inner `for s_key in seq.dir()` loop of `get_seq_data` (lines 83-99):
`s_val = getattr(seq, s_key, '')`; skip UID-typed values and ignored keys;
recurse on sequences (storing the result unconditionally, line 90); sanitize
plain strings, `assign_type` everything else, store only truthy results. -/
def keyLoop (seq : Dataset) (keys ignore_keys : List String) (seq_dict : Dict) : Dict :=
  match keys with
  | [] => seq_dict
  | s_key :: ks =>
    let s_val := (dlookup s_key seq).getD (.pystr "")
    let acc :=
      if isUid s_val ∨ s_key ∈ ignore_keys then seq_dict
      else
        match h : s_val with
        | .seq gs => dictInsert seq_dict s_key (.dict (get_seq_data gs ignore_keys))
        | v =>
          match (if isStr v then (format_string (strO v)).map PyVal.str else assign_type v) with
          | some pv => if pyTruthy pv then dictInsert seq_dict s_key pv else seq_dict
          | none => seq_dict
    keyLoop seq ks ignore_keys acc
termination_by (sizeOf seq, keys.length + 2)
decreasing_by
  · apply Prod.Lex.left
    have hlk : ∀ (l : Dataset) (v : DVal), dlookup s_key l = some v → sizeOf v < sizeOf l := by
      intro l
      induction l with
      | nil => intro v hv; simp [dlookup] at hv
      | cons a rest ih =>
        intro v hv
        obtain ⟨k', w⟩ := a
        simp only [dlookup] at hv
        split at hv
        · cases hv
          simp only [List.cons.sizeOf_spec, Prod.mk.sizeOf_spec]
          omega
        · have := ih _ hv
          simp only [List.cons.sizeOf_spec, Prod.mk.sizeOf_spec]
          omega
    have h' : (dlookup s_key seq).getD (DVal.pystr "") = DVal.seq gs := h
    cases hd : dlookup s_key seq with
    | none => rw [hd] at h'; simp [Option.getD] at h'
    | some w =>
      rw [hd] at h'
      simp only [Option.getD] at h'
      subst h'
      have hs := hlk _ _ hd
      simp only [DVal.seq.sizeOf_spec] at hs
      omega
  · apply Prod.Lex.right
    simp only [List.length_cons]
    omega

end

/-- Per-tag `formatted` computation of `parse_header` (source lines 111-122):
the value of the local `formatted` after the conditional body, before the
`if formatted:` store.  A string value shorter than 10240 characters is run
through `format_string` only; everything else (including strings of length
at least 10240) goes through `assign_type`. -/
def headerFormatted (ptd : Dataset) (tag : String) : Option PyVal :=
  match dlookup tag ptd with
  | none => none
  | some value =>
    if tag ∉ exclude_tags ∧ isSeq value = false then
      if dvalTruthy value ∨ dvalEqZero value then
        if isStr value = true ∧ (strO value).length < 10240 then
          (format_string (strO value)).map PyVal.str
        else assign_type value
      else none
    else none

/-- One iteration of the `for tag in tags` loop of `parse_header` (source
lines 110-132): store `formatted` when truthy (line 123); then, for a
sequence-typed value (line 125, with no denylist check), store the
flattened sequence when non-empty. -/
def headerStep (ptd : Dataset) (header : Dict) (tag : String) : Dict :=
  let header' :=
    match headerFormatted ptd tag with
    | some v => if pyTruthy v then dictInsert header tag v else header
    | none => header
  match dlookup tag ptd with
  | some (.seq gs) =>
    let seq_data := get_seq_data gs exclude_tags
    if seq_data.isEmpty then header' else dictInsert header' tag (.dict seq_data)
  | _ => header'

/-- `parse_header` (source lines 104-133): fold `headerStep` over the tag
directory, starting from the empty header. -/
def parse_header (ptd : Dataset) : Dict :=
  (ptd.map Prod.fst).foldl (headerStep ptd) []

/-- The net effect of `parse_header` on one tag: what the output maps the
tag to (`none` = the tag is absent from the output). -/
def tagResult (ptd : Dataset) (tag : String) : Option PyVal :=
  match dlookup tag ptd with
  | some (.seq gs) =>
    let seq_data := get_seq_data gs exclude_tags
    if seq_data.isEmpty then none else some (.dict seq_data)
  | some _ =>
    match headerFormatted ptd tag with
    | some v => if pyTruthy v then some v else none
    | none => none
  | none => none

/-- The trailing 20-byte magic constant `LARGE_PET_LM_RAWDATA`. -/
def MAGIC_STR : List Nat := [76,65,82,71,69,95,80,69,84,95,76,77,95,82,65,87,68,65,84,65]

/-- The 4-byte little-endian encoding of a length (`struct.pack('i', n)` for
`0 ≤ n < 2^31` on a little-endian host). -/
def pack_i (n : Nat) : List Nat :=
  [n % 256, n / 256 % 256, n / 65536 % 256, n / 16777216 % 256]

/-- `struct.unpack('i', bytes)[0]`: 4 little-endian bytes as a signed 32-bit
integer. -/
def unpack_i (bytes : List Nat) : Int :=
  let u := bytes.getD 0 0 + 256 * bytes.getD 1 0 + 65536 * bytes.getD 2 0 +
    16777216 * bytes.getD 3 0
  if u < 2147483648 then (u : Int) else (u : Int) - 4294967296

/-- How a run of the gear can fail before producing a parsed header. -/
inductive PtdError where
  /-- `OSError` from `fp.seek` with a negative target on a file too short to
  hold the trailer (uncaught: the process dies, nothing is written). -/
  | seekOsError
  /-- Trailing magic mismatch: `sys.exit(1)` at source line 35. -/
  | notAContainer
  /-- `OSError` from `fp.seek(-offset - 24, 2)` when the offset exceeds the
  bytes available before the trailer (uncaught: nothing is written). -/
  | truncatedFile
  /-- `pydicom.read_file` raised (uncaught: nothing is written). -/
  | decodeFailure
  /-- The input file name does not end in `.ptd`: `sys.exit(1)` at line 192. -/
  | badExtension
deriving DecidableEq, Repr

/-- `ptd_reader` (source lines 16-43) up to the byte extraction: check the
trailing magic, read the 4-byte offset, seek back `offset + 24` bytes from
the end and read `offset` bytes.  Each failing `fp.seek` (negative target)
is an error; `fp.read` with a negative count reads to end-of-file. -/
def ptd_reader (file : List Nat) : Except PtdError (List Nat) :=
  if file.length < 20 then .error .seekOsError
  else if file.drop (file.length - 20) ≠ MAGIC_STR then .error .notAContainer
  else if file.length < 24 then .error .seekOsError
  else
    let offset : Int := unpack_i ((file.drop (file.length - 24)).take 4)
    let seekPos : Int := (file.length : Int) - offset - 24
    if seekPos < 0 then .error .truncatedFile
    else if offset < 0 then .ok (file.drop seekPos.toNat)
    else .ok ((file.drop seekPos.toNat).take offset.toNat)

/-- Python `s.endswith(suffix)`. -/
def pyEndsWith (s suffix : String) : Bool :=
  s.toList.drop (s.toList.length - suffix.toList.length) == suffix.toList

/-- The gear entry flow (source lines 176-192), with the external decoder
(`pydicom.read_file`) abstracted as a parameter: reject names without the
`.ptd` extension, locate the header bytes, decode, parse.  A `.ok` result
is the parsed header that gets written to `.metadata.json`; every `.error`
aborts the run with no output document. -/
def gear_main (decode : List Nat → Option Dataset) (name : String)
    (file : List Nat) : Except PtdError Dict :=
  if pyEndsWith name ".ptd" then
    match ptd_reader file with
    | .ok buf =>
      match decode buf with
      | some ptd => .ok (parse_header ptd)
      | none => .error .decodeFailure
    | .error e => .error e
  else .error .badExtension

/-- A header of exactly `2^31` bytes: its 4-byte little-endian length field
is `[0,0,0,128]`, which `struct.unpack('i', ...)` reads back as `-2^31`. -/
def big_header : List Nat := List.replicate 2147483648 0


/-- `dictInsert` binds its key to the inserted value. -/
theorem dlookup_dictInsert_self {α : Type} (d : List (String × α)) (k : String) (v : α) :
    dlookup k (dictInsert d k v) = some v := by
  induction d with
  | nil => simp [dictInsert, dlookup]
  | cons a rest ih =>
    obtain ⟨k', w⟩ := a
    by_cases hk : k' = k
    · simp [dictInsert, dlookup, hk]
    · simp [dictInsert, dlookup, hk, ih]

/-- `dictInsert` leaves every other key unchanged. -/
theorem dlookup_dictInsert_ne {α : Type} (d : List (String × α)) {k t : String} (v : α)
    (hne : t ≠ k) : dlookup t (dictInsert d k v) = dlookup t d := by
  induction d with
  | nil => simp [dictInsert, dlookup, Ne.symm hne]
  | cons a rest ih =>
    obtain ⟨k', w⟩ := a
    by_cases hk : k' = k
    · simp [dictInsert, dlookup, hk, Ne.symm hne]
    · simp [dictInsert, dlookup, hk, ih]

/-- A key outside the key list is absent. -/
theorem dlookup_eq_none_of_not_mem {α : Type} {l : List (String × α)} {t : String}
    (h : t ∉ l.map Prod.fst) : dlookup t l = none := by
  induction l with
  | nil => rfl
  | cons a rest ih =>
    obtain ⟨k', w⟩ := a
    simp only [List.map_cons, List.mem_cons, not_or] at h
    have hne : k' ≠ t := fun hh => h.1 hh.symm
    simp [dlookup, hne, ih h.2]

/-- `format_string` never returns the empty string. -/
theorem format_string_ne_empty {s t : String} (h : format_string s = some t) : t ≠ "" := by
  unfold format_string at h
  simp only at h
  split at h
  · exact absurd h (by simp)
  case isFalse hc =>
    cases h
    intro he
    apply hc
    right
    have hdata : (s.toList.filter (fun c => c.toNat ≤ 127)).filter printableChar = [] := by
      simpa using congrArg String.data he
    rw [hdata]
    rfl

/-- A sequence-typed value never produces a `formatted` result (the line
113 condition requires a non-`Sequence` type). -/
theorem headerFormatted_of_seq {ptd : Dataset} {tag : String} {gs : List Dataset}
    (h : dlookup tag ptd = some (.seq gs)) : headerFormatted ptd tag = none := by
  simp [headerFormatted, h, isSeq]

/-- Effect of one `headerStep` on one looked-up key. -/
theorem dlookup_headerStep (ptd : Dataset) (header : Dict) (tag t : String) :
    dlookup t (headerStep ptd header tag) =
      if tag = t then
        match tagResult ptd t with
        | some v => some v
        | none => dlookup t header
      else dlookup t header := by
  by_cases htag : tag = t
  · subst htag
    unfold headerStep tagResult
    cases hv : dlookup tag ptd with
    | none => simp [headerFormatted, hv]
    | some v =>
      cases v with
      | seq gs =>
        rw [headerFormatted_of_seq hv]
        by_cases hemp : (get_seq_data gs exclude_tags).isEmpty = true
        · simp [hv, hemp]
        · simp [hv, hemp, dlookup_dictInsert_self]
      | pystr a => {
        cases hf : headerFormatted ptd tag with
        | none => simp [hv, hf]
        | some w =>
          by_cases htr : pyTruthy w = true
          · simp [hv, hf, htr, dlookup_dictInsert_self]
          · simp [hv, hf, htr]
      }
      | pyint a => {
        cases hf : headerFormatted ptd tag with
        | none => simp [hv, hf]
        | some w =>
          by_cases htr : pyTruthy w = true
          · simp [hv, hf, htr, dlookup_dictInsert_self]
          · simp [hv, hf, htr]
      }
      | person a => {
        cases hf : headerFormatted ptd tag with
        | none => simp [hv, hf]
        | some w =>
          by_cases htr : pyTruthy w = true
          · simp [hv, hf, htr, dlookup_dictInsert_self]
          · simp [hv, hf, htr]
      }
      | uid a => {
        cases hf : headerFormatted ptd tag with
        | none => simp [hv, hf]
        | some w =>
          by_cases htr : pyTruthy w = true
          · simp [hv, hf, htr, dlookup_dictInsert_self]
          · simp [hv, hf, htr]
      }
      | multi a => {
        cases hf : headerFormatted ptd tag with
        | none => simp [hv, hf]
        | some w =>
          by_cases htr : pyTruthy w = true
          · simp [hv, hf, htr, dlookup_dictInsert_self]
          · simp [hv, hf, htr]
      }
      | pynone => {
        cases hf : headerFormatted ptd tag with
        | none => simp [hv, hf]
        | some w =>
          by_cases htr : pyTruthy w = true
          · simp [hv, hf, htr, dlookup_dictInsert_self]
          · simp [hv, hf, htr]
      }
  · have hne : t ≠ tag := fun hh => htag hh.symm
    unfold headerStep
    cases hv : dlookup tag ptd with
    | none =>
      cases hf : headerFormatted ptd tag with
      | none => simp [htag]
      | some w => by_cases htr : pyTruthy w = true <;>
          simp [htag, htr, dlookup_dictInsert_ne _ _ hne]
    | some v =>
      cases v with
      | seq gs =>
        by_cases hemp : (get_seq_data gs exclude_tags).isEmpty = true
        · cases hf : headerFormatted ptd tag with
          | none => simp [htag, hemp]
          | some w => by_cases htr : pyTruthy w = true <;>
              simp [htag, htr, hemp, dlookup_dictInsert_ne _ _ hne]
        · cases hf : headerFormatted ptd tag with
          | none => simp [htag, hemp, dlookup_dictInsert_ne _ _ hne]
          | some w => by_cases htr : pyTruthy w = true <;>
              simp [htag, htr, hemp, dlookup_dictInsert_ne _ _ hne]
      | pystr a => {
        cases hf : headerFormatted ptd tag with
        | none => simp [htag]
        | some w => by_cases htr : pyTruthy w = true <;>
            simp [htag, htr, dlookup_dictInsert_ne _ _ hne]
      }
      | pyint a => {
        cases hf : headerFormatted ptd tag with
        | none => simp [htag]
        | some w => by_cases htr : pyTruthy w = true <;>
            simp [htag, htr, dlookup_dictInsert_ne _ _ hne]
      }
      | person a => {
        cases hf : headerFormatted ptd tag with
        | none => simp [htag]
        | some w => by_cases htr : pyTruthy w = true <;>
            simp [htag, htr, dlookup_dictInsert_ne _ _ hne]
      }
      | uid a => {
        cases hf : headerFormatted ptd tag with
        | none => simp [htag]
        | some w => by_cases htr : pyTruthy w = true <;>
            simp [htag, htr, dlookup_dictInsert_ne _ _ hne]
      }
      | multi a => {
        cases hf : headerFormatted ptd tag with
        | none => simp [htag]
        | some w => by_cases htr : pyTruthy w = true <;>
            simp [htag, htr, dlookup_dictInsert_ne _ _ hne]
      }
      | pynone => {
        cases hf : headerFormatted ptd tag with
        | none => simp [htag]
        | some w => by_cases htr : pyTruthy w = true <;>
            simp [htag, htr, dlookup_dictInsert_ne _ _ hne]
      }

/-- Effect of the whole tag loop on one looked-up key. -/
theorem dlookup_foldl_headerStep (ptd : Dataset) (t : String) :
    ∀ (tagsL : List String) (acc : Dict),
    dlookup t (tagsL.foldl (headerStep ptd) acc) =
      if t ∈ tagsL ∧ (tagResult ptd t).isSome = true then tagResult ptd t
      else dlookup t acc := by
  intro tagsL
  induction tagsL with
  | nil => intro acc; simp
  | cons a rest ih =>
    intro acc
    rw [List.foldl_cons, ih]
    by_cases hc : t ∈ rest ∧ (tagResult ptd t).isSome = true
    · rw [if_pos hc, if_pos ⟨List.mem_cons_of_mem a hc.1, hc.2⟩]
    · rw [if_neg hc, dlookup_headerStep]
      by_cases ha : a = t
      · subst ha
        rw [if_pos rfl]
        cases hres : tagResult ptd a with
        | some v => simp [hres, List.mem_cons]
        | none => simp [hres]
      · rw [if_neg ha]
        have hno : ¬(t ∈ a :: rest ∧ (tagResult ptd t).isSome = true) := by
          rintro ⟨hmem, hsome⟩
          rcases List.mem_cons.mp hmem with h1 | h2
          · exact ha h1.symm
          · exact hc ⟨h2, hsome⟩
        rw [if_neg hno]

/-- The output of `parse_header` maps every tag to exactly its `tagResult`
(`none` meaning the tag is absent from the output mapping). -/
theorem parse_header_dlookup (ptd : Dataset) (t : String) :
    dlookup t (parse_header ptd) = tagResult ptd t := by
  unfold parse_header
  rw [dlookup_foldl_headerStep]
  by_cases hc : t ∈ ptd.map Prod.fst ∧ (tagResult ptd t).isSome = true
  · rw [if_pos hc]
  · rw [if_neg hc]
    by_cases hmem : t ∈ ptd.map Prod.fst
    · have hns : ¬ (tagResult ptd t).isSome = true := fun hs => hc ⟨hmem, hs⟩
      cases hres : tagResult ptd t with
      | none => simp [dlookup]
      | some v => rw [hres] at hns; simp at hns
    · have hnone : dlookup t ptd = none := dlookup_eq_none_of_not_mem hmem
      simp [dlookup, tagResult, hnone]

/-- The inner key loop never binds a key from `ignore_keys`. -/
theorem dlookup_keyLoop_ignored (seq : Dataset) (ign : List String) {t : String} (ht : t ∈ ign) :
    ∀ (keys : List String) (acc : Dict), dlookup t (keyLoop seq keys ign acc) = dlookup t acc := by
  intro keys
  induction keys with
  | nil => intro acc; simp [keyLoop]
  | cons s_key ks ih =>
    intro acc
    rw [keyLoop]
    rw [ih]
    by_cases hig : isUid ((dlookup s_key seq).getD (.pystr "")) = true ∨ s_key ∈ ign
    · simp only [if_pos hig]
    · have hskt : t ≠ s_key := fun hh => (not_or.mp hig).2 (hh ▸ ht)
      simp only [if_neg hig]
      split <;>
        first
          | rw [dlookup_dictInsert_ne _ _ hskt]
          | (split <;>
              first
                | (split <;> first | rw [dlookup_dictInsert_ne _ _ hskt] | rfl)
                | rfl)

/-- The outer group loop never binds a key from `ignore_keys`. -/
theorem dlookup_seqLoop_ignored (ign : List String) {t : String} (ht : t ∈ ign) :
    ∀ (sequence : List Dataset) (acc : Dict),
    dlookup t (seqLoop sequence ign acc) = dlookup t acc := by
  intro sequence
  induction sequence with
  | nil => intro acc; simp [seqLoop]
  | cons seq rest ih =>
    intro acc
    rw [seqLoop, ih, dlookup_keyLoop_ignored seq ign ht]

/-- `get_seq_data` never binds a key from `ignore_keys`. -/
theorem dlookup_get_seq_data_ignored (gs : List Dataset) (ign : List String) {t : String}
    (ht : t ∈ ign) : dlookup t (get_seq_data gs ign) = none := by
  rw [get_seq_data, dlookup_seqLoop_ignored ign ht]
  rfl

/-- C5: `assign_type` normalizes a plain scalar with precedence integer,
then float, then sanitized string; in particular `"42"` becomes integer
`42`, `"4.5"` becomes float `4.5`, `"abc"` stays the string `"abc"`, and
`"?"` is dropped (`None`). -/
theorem c5_scalar_numeric_precedence :
    (∀ (s : String) (n : Int), int_of_string s = some n →
      assign_type (DVal.pystr s) = some (PyVal.int n)) ∧
    (∀ (s : String) (f : PyFloat), int_of_string s = none → float_of_string s = some f →
      assign_type (DVal.pystr s) = some (PyVal.float f)) ∧
    (∀ s : String, int_of_string s = none → float_of_string s = none →
      assign_type (DVal.pystr s) = (format_string s).map PyVal.str) ∧
    assign_type (DVal.pystr "42") = some (PyVal.int 42) ∧
    assign_type (DVal.pystr "4.5") = some (PyVal.float (PyFloat.finite (9 / 2))) ∧
    assign_type (DVal.pystr "abc") = some (PyVal.str "abc") ∧
    assign_type (DVal.pystr "?") = none := by
  refine ⟨?_, ?_, ?_, by rfl, by with_unfolding_all rfl, by rfl, by rfl⟩
  · intro s n hi
    simp [assign_type, pyStr, hi]
  · intro s f hi hf
    simp [assign_type, pyStr, hi, hf]
  · intro s hi hf
    simp [assign_type, pyStr, hi, hf]

/-- C5 witness: the precedence cases applied at `"42"`, `"4.5"`, `"abc"`. -/
theorem c5_scalar_numeric_precedence_witness :
    int_of_string "42" = some 42 ∧ int_of_string "4.5" = none ∧
    float_of_string "abc" = none ∧
    assign_type (DVal.pystr "42") = some (PyVal.int 42) ∧
    assign_type (DVal.pystr "abc") = (format_string "abc").map PyVal.str :=
  ⟨rfl, rfl, rfl, c5_scalar_numeric_precedence.1 "42" 42 rfl,
    c5_scalar_numeric_precedence.2.2.1 "abc" rfl rfl⟩

/-- C6 counterexample: the element `"?"` of the list `["1","2","?"]` does
not parse as integer or float, its original string is nonempty, and it
sanitizes to `None`; `assign_type` keeps it as a null entry in the string
list instead of dropping it. -/
theorem c6_counterexample :
    assign_type (DVal.multi ["1", "2", "?"]) = some (PyVal.listStr [some "1", some "2", none]) ∧
    assign_type (DVal.multi ["1", "2", "?"]) ≠ some (PyVal.listStr [some "1", some "2"]) := by
  constructor
  · rfl
  · intro h
    rw [show assign_type (DVal.multi ["1", "2", "?"]) =
      some (PyVal.listStr [some "1", some "2", none]) from rfl] at h
    simp at h

/-- C6 (amended): a multi-valued value normalizes to a homogeneous list —
all-integer if every element parses as integer, else all-float if every
element parses as float, else the per-element `format_string` results of
exactly the elements whose original string is nonempty (elements that
sanitize to empty remain as null entries); `["1","2","x"]` normalizes to
the string list `["1","2","x"]`. -/
theorem c6_list_homogeneity :
    (∀ xs : List String,
      (∃ ns, assign_type (DVal.multi xs) = some (PyVal.listInt ns)) ∨
      (∃ fs, assign_type (DVal.multi xs) = some (PyVal.listFloat fs)) ∨
      assign_type (DVal.multi xs) =
        some (PyVal.listStr ((xs.filter (fun x => x.length > 0)).map format_string))) ∧
    assign_type (DVal.multi ["1", "2", "x"]) = some (PyVal.listStr [some "1", some "2", some "x"]) := by
  refine ⟨fun xs => ?_, by rfl⟩
  simp only [assign_type]
  cases hi : xs.mapM int_of_string with
  | some ns => exact Or.inl ⟨ns, rfl⟩
  | none =>
    cases hf : xs.mapM float_of_string with
    | some fs => exact Or.inr (Or.inl ⟨fs, rfl⟩)
    | none => exact Or.inr (Or.inr rfl)

/-- C7: the code drops a tag whose value normalizes to integer `0`, even
though line 115 (`if value or value == 0`, commented "Some values are
zero") admits the zero value: `assign_type` yields `0`, but the store
guard `if formatted:` is falsy on `0`, so the tag is absent from the
output.  The claim (and the source's own comment) say it should be stored. -/
theorem c7_zero_value_dropped :
    assign_type (DVal.pyint 0) = some (PyVal.int 0) ∧
    dvalTruthy (DVal.pyint 0) = false ∧
    dvalEqZero (DVal.pyint 0) = true ∧
    pyTruthy (PyVal.int 0) = false ∧
    parse_header [("FrameReferenceTime", DVal.pyint 0)] = [] :=
  ⟨rfl, rfl, rfl, rfl, rfl⟩

/-- C1 counterexample: the 2-character string `"42"` (far below 10240) is
*not* numerically coerced by `parse_header` — it is stored as the string
`"42"`, although full normalization (`assign_type`) would coerce it to
integer `42`.  The guard `len(value) < 10240` routes *short* strings to
sanitize-only and long strings to `assign_type`, the opposite of the claim. -/
theorem c1_counterexample :
    parse_header [("SeriesNumber", DVal.pystr "42")] = [("SeriesNumber", PyVal.str "42")] ∧
    parse_header [("SeriesNumber", DVal.pystr "42")] ≠ [("SeriesNumber", PyVal.int 42)] ∧
    assign_type (DVal.pystr "42") = some (PyVal.int 42) := by
  refine ⟨by rfl, ?_, by rfl⟩
  intro h
  rw [show parse_header [("SeriesNumber", DVal.pystr "42")] =
    [("SeriesNumber", PyVal.str "42")] from rfl] at h
  simp at h

/-- C1 (amended): in `parse_header`, a plain string value of length *less
than* 10240 gets `format_string` sanitization only (no numeric coercion),
while a string of length 10240 or more goes through the full `assign_type`
normalization (numeric coercion included). -/
theorem c1_short_strings_sanitize_only (tag s : String) (hex : tag ∉ exclude_tags) :
    (s.length < 10240 →
      headerFormatted [(tag, DVal.pystr s)] tag = (format_string s).map PyVal.str) ∧
    (10240 ≤ s.length →
      headerFormatted [(tag, DVal.pystr s)] tag = assign_type (DVal.pystr s)) := by
  have hlook : dlookup tag [(tag, DVal.pystr s)] = some (DVal.pystr s) := by simp [dlookup]
  constructor
  · intro hlen
    by_cases hemp : s = ""
    · subst hemp
      have hrhs : (format_string "").map PyVal.str = (none : Option PyVal) := rfl
      rw [hrhs]
      simp +decide [headerFormatted, dlookup, hex, isSeq, dvalTruthy, dvalEqZero]
    · have hne : s.isEmpty = false := by
        rw [Bool.eq_false_iff, ne_eq, String.isEmpty_iff]
        exact hemp
      simp [headerFormatted, hlook, hex, isSeq, isStr, strO, dvalTruthy, dvalEqZero, hne, hlen]
  · intro hlen
    have hemp : s ≠ "" := by
      intro h
      subst h
      simp [String.length] at hlen
    have hne : s.isEmpty = false := by
      rw [Bool.eq_false_iff, ne_eq, String.isEmpty_iff]
      exact hemp
    simp [headerFormatted, hlook, hex, isSeq, isStr, strO, dvalTruthy, dvalEqZero, hne,
      Nat.not_lt.mpr hlen]

/-- C1 witness: both branches of the amended statement at concrete inputs:
`"42"` (length 2) is sanitized only; a 10240-character digit string is
handed to `assign_type`. -/
theorem c1_short_strings_sanitize_only_witness :
    "SeriesNumber" ∉ exclude_tags ∧
    headerFormatted [("SeriesNumber", DVal.pystr "42")] "SeriesNumber" = some (PyVal.str "42") ∧
    headerFormatted [("LongText", DVal.pystr (String.mk (List.replicate 10240 '7'))), ("A", DVal.pystr "x")] "LongText"
      = assign_type (DVal.pystr (String.mk (List.replicate 10240 '7'))) := by
  refine ⟨by decide, ?_, ?_⟩
  · have h := (c1_short_strings_sanitize_only "SeriesNumber" "42" (by decide)).1 (by decide)
    rw [h]
    rfl
  · exact (c1_short_strings_sanitize_only "LongText" (String.mk (List.replicate 10240 '7'))
      (by decide)).2 (by
        show 10240 ≤ (List.replicate 10240 '7').length
        rw [List.length_replicate])

/-- C2 counterexample: `"PixelData"` is in the exclude set, yet a top-level
`PixelData` tag holding a sequence-of-groups appears in the output (the
sequence branch at source line 125 performs no denylist check). -/
theorem c2_counterexample :
    "PixelData" ∈ exclude_tags ∧
    dlookup "PixelData"
      (parse_header [("PixelData", DVal.seq [[("SeriesDescription", DVal.pystr "brain")]])]) =
      some (PyVal.dict [("SeriesDescription", PyVal.str "brain")]) := by
  refine ⟨by decide, ?_⟩
  simp +decide [parse_header, headerStep, headerFormatted, get_seq_data, seqLoop, keyLoop,
    dlookup, dictInsert, exclude_tags, isUid, isSeq, isStr, strO, pyTruthy, format_string,
    printableChar]

/-- C2 (amended): a denylisted tag with a non-sequence value never appears
at top level, and a denylisted key never appears inside any flattened
group; but a top-level denylisted tag whose value is a sequence-of-groups
is still processed and appears whenever its flattening is non-empty. -/
theorem c2_denylist_except_top_level_sequences :
    (∀ (ptd : Dataset) (tag : String), tag ∈ exclude_tags →
      (∀ gs, dlookup tag ptd ≠ some (DVal.seq gs)) →
      dlookup tag (parse_header ptd) = none) ∧
    (∀ (gs : List Dataset) (ign : List String) (t : String), t ∈ ign →
      dlookup t (get_seq_data gs ign) = none) ∧
    (∀ (tag : String) (gs : List Dataset), tag ∈ exclude_tags →
      (get_seq_data gs exclude_tags).isEmpty = false →
      dlookup tag (parse_header [(tag, DVal.seq gs)]) =
        some (PyVal.dict (get_seq_data gs exclude_tags))) := by
  refine ⟨?_, ?_, ?_⟩
  · intro ptd tag hex hnseq
    rw [parse_header_dlookup]
    unfold tagResult
    cases hv : dlookup tag ptd with
    | none => rfl
    | some v =>
      cases v with
      | seq gs => exact absurd hv (hnseq gs)
      | pystr a => simp [headerFormatted, hv, hex]
      | pyint a => simp [headerFormatted, hv, hex]
      | person a => simp [headerFormatted, hv, hex]
      | uid a => simp [headerFormatted, hv, hex]
      | multi a => simp [headerFormatted, hv, hex]
      | pynone => simp [headerFormatted, hv, hex]
  · intro gs ign t ht
    exact dlookup_get_seq_data_ignored gs ign ht
  · intro tag gs _hex hne
    rw [parse_header_dlookup]
    have hv : dlookup tag [(tag, DVal.seq gs)] = some (DVal.seq gs) := by simp [dlookup]
    simp [tagResult, hv, hne]

/-- C2 witness: the three amended parts at concrete inputs: a denylisted
scalar tag is absent; a denylisted key inside a group is absent; a
denylisted top-level sequence tag with non-empty content is present. -/
theorem c2_denylist_except_top_level_sequences_witness :
    dlookup "PixelData" (parse_header [("PixelData", DVal.pystr "blob")]) = none ∧
    dlookup "PixelData" (get_seq_data [[("PixelData", DVal.pystr "x")]] exclude_tags) = none ∧
    dlookup "[Unknown]" (parse_header [("[Unknown]", DVal.seq [[("A", DVal.pystr "v")]])]) =
      some (PyVal.dict (get_seq_data [[("A", DVal.pystr "v")]] exclude_tags)) := by
  refine ⟨?_, ?_, ?_⟩
  · exact c2_denylist_except_top_level_sequences.1 [("PixelData", DVal.pystr "blob")] "PixelData"
      (by decide) (fun gs h => by simp [dlookup] at h)
  · exact c2_denylist_except_top_level_sequences.2.1 [[("PixelData", DVal.pystr "x")]]
      exclude_tags "PixelData" (by decide)
  · exact c2_denylist_except_top_level_sequences.2.2 "[Unknown]" [[("A", DVal.pystr "v")]]
      (by decide)
      (by simp +decide [get_seq_data, seqLoop, keyLoop, dlookup, dictInsert, exclude_tags,
        isUid, isStr, strO, pyTruthy, format_string, printableChar])

/-- C8 counterexample: a nested sequence one level down whose flattening is
empty *does* appear as a key (mapped to an empty mapping): the recursive
store at source line 90 has no emptiness check. -/
theorem c8_counterexample :
    parse_header
      [("ReferencedPatientSequence", DVal.seq [[("ReferencedStudySequence", DVal.seq [[]])]])] =
      [("ReferencedPatientSequence", PyVal.dict [("ReferencedStudySequence", PyVal.dict [])])] := by
  simp +decide [parse_header, headerStep, headerFormatted, get_seq_data, seqLoop, keyLoop,
    dlookup, dictInsert, exclude_tags, isUid, isSeq]

/-- C8 (amended): the emptiness check exists only at top level — a
top-level tag whose sequence flattens to an empty mapping is omitted; but
inside a group, a nested sequence key is stored unconditionally, even when
its flattening is empty. -/
theorem c8_empty_groups_pruned_only_at_top_level :
    (∀ (ptd : Dataset) (tag : String) (gs : List Dataset),
      dlookup tag ptd = some (DVal.seq gs) →
      (get_seq_data gs exclude_tags).isEmpty = true →
      dlookup tag (parse_header ptd) = none) ∧
    (∀ (k : String) (gs : List Dataset) (ign : List String), k ∉ ign →
      get_seq_data [[(k, DVal.seq gs)]] ign = [(k, PyVal.dict (get_seq_data gs ign))]) := by
  constructor
  · intro ptd tag gs hv hemp
    rw [parse_header_dlookup]
    simp [tagResult, hv, hemp]
  · intro k gs ign hk
    rw [get_seq_data, seqLoop, seqLoop]
    rw [show ([(k, DVal.seq gs)] : Dataset).map Prod.fst = [k] from rfl]
    rw [keyLoop]
    have hval : (dlookup k [(k, DVal.seq gs)]).getD (DVal.pystr "") = DVal.seq gs := by
      simp [dlookup]
    simp only [hval, isUid, hk, keyLoop]
    split
    next heq => simp at heq
    next heq =>
      split
      next gs1 heq2 =>
        rw [hval] at heq2
        cases heq2
        simp [dictInsert]
      next hnoseq =>
        exact absurd hval (hnoseq gs)

/-- C8 witness: a top-level sequence flattening to nothing is omitted; the
same sequence nested inside a group is stored as an empty mapping. -/
theorem c8_empty_groups_pruned_only_at_top_level_witness :
    dlookup "ReferencedPatientSequence"
      (parse_header [("ReferencedPatientSequence", DVal.seq [[]])]) = none ∧
    get_seq_data [[("ReferencedStudySequence", DVal.seq [[]])]] exclude_tags =
      [("ReferencedStudySequence", PyVal.dict (get_seq_data [[]] exclude_tags))] := by
  constructor
  · exact c8_empty_groups_pruned_only_at_top_level.1 [("ReferencedPatientSequence", DVal.seq [[]])]
      "ReferencedPatientSequence" [[]] (by simp [dlookup])
      (by simp [get_seq_data, seqLoop, keyLoop])
  · exact c8_empty_groups_pruned_only_at_top_level.2 "ReferencedStudySequence" [[]]
      exclude_tags (by decide)

/-- One pass of the inner loop over a single-entry group holding a plain
string: sanitize, then store iff truthy. -/
theorem keyLoop_single_pystr (k s : String) (ign : List String) (acc : Dict) (hk : k ∉ ign) :
    keyLoop [(k, DVal.pystr s)] [k] ign acc =
      match (format_string s).map PyVal.str with
      | some pv => if pyTruthy pv = true then dictInsert acc k pv else acc
      | none => acc := by
  have hval : (dlookup k [(k, DVal.pystr s)]).getD (DVal.pystr "") = DVal.pystr s := by
    simp [dlookup]
  rw [keyLoop, keyLoop]
  simp only [hval, isUid, hk]
  split
  next heq => simp at heq
  next heq =>
    split
    next gs1 heq2 =>
      rw [hval] at heq2
      cases heq2
    next hnoseq =>
      rw [hval]
      simp only [isStr, strO, if_pos rfl]
      rfl

/-- C10: when a sequence holds several sub-groups, `get_seq_data` merges
all their tags into one mapping; a tag present in two groups keeps the
value from the later group (it overwrites the earlier one), and tags from
different groups coexist in the single result. -/
theorem c10_groups_merge_with_overwrite (k k1 k2 : String) (ign : List String)
    (s1 s2 t1 t2 : String)
    (hk : k ∉ ign) (hk1 : k1 ∉ ign) (hk2 : k2 ∉ ign) (hne : k1 ≠ k2)
    (h1 : format_string s1 = some t1) (h2 : format_string s2 = some t2) :
    get_seq_data [[(k, DVal.pystr s1)], [(k, DVal.pystr s2)]] ign = [(k, PyVal.str t2)] ∧
    get_seq_data [[(k1, DVal.pystr s1)], [(k2, DVal.pystr s2)]] ign =
      [(k1, PyVal.str t1), (k2, PyVal.str t2)] := by
  have he1 : t1.isEmpty = false := by
    rw [Bool.eq_false_iff, ne_eq, String.isEmpty_iff]
    exact format_string_ne_empty h1
  have he2 : t2.isEmpty = false := by
    rw [Bool.eq_false_iff, ne_eq, String.isEmpty_iff]
    exact format_string_ne_empty h2
  constructor
  · rw [get_seq_data, seqLoop, seqLoop, seqLoop]
    rw [show ([(k, DVal.pystr s1)] : Dataset).map Prod.fst = [k] from rfl]
    rw [show ([(k, DVal.pystr s2)] : Dataset).map Prod.fst = [k] from rfl]
    rw [keyLoop_single_pystr k s1 ign [] hk, keyLoop_single_pystr k s2 ign _ hk]
    simp [h1, h2, pyTruthy, he1, he2, dictInsert]
  · rw [get_seq_data, seqLoop, seqLoop, seqLoop]
    rw [show ([(k1, DVal.pystr s1)] : Dataset).map Prod.fst = [k1] from rfl]
    rw [show ([(k2, DVal.pystr s2)] : Dataset).map Prod.fst = [k2] from rfl]
    rw [keyLoop_single_pystr k1 s1 ign [] hk1, keyLoop_single_pystr k2 s2 ign _ hk2]
    simp [h1, h2, pyTruthy, he1, he2, dictInsert, hne]

/-- C10 witness: two groups with the same tag keep the later value; two
groups with different tags merge into one mapping. -/
theorem c10_groups_merge_with_overwrite_witness :
    get_seq_data [[("PatientPosition", DVal.pystr "HFS")], [("PatientPosition", DVal.pystr "FFS")]] [] =
      [("PatientPosition", PyVal.str "FFS")] ∧
    get_seq_data [[("PatientPosition", DVal.pystr "HFS")], [("PatientWeight", DVal.pystr "wt")]] [] =
      [("PatientPosition", PyVal.str "HFS"), ("PatientWeight", PyVal.str "wt")] := by
  have h := c10_groups_merge_with_overwrite "PatientPosition" "PatientPosition" "PatientWeight"
    [] "HFS" "FFS" "HFS" "FFS" (by decide) (by decide) (by decide) (by decide) (by rfl) (by rfl)
  refine ⟨h.1, ?_⟩
  have h2 := (c10_groups_merge_with_overwrite "PatientPosition" "PatientPosition" "PatientWeight"
    [] "HFS" "wt" "HFS" "wt" (by decide) (by decide) (by decide) (by decide) (by rfl) (by rfl)).2
  exact h2

/-- C3: on a file that ends with the magic string but whose 4-byte offset
field exceeds the bytes available before the trailer, `ptd_reader` fails
on the backwards seek (the spec's `TruncatedFileError`) before reading any
header byte, and the run produces no output document. -/
theorem c3_oversized_offset_is_fatal (decode : List Nat → Option Dataset) (name : String)
    (file : List Nat)
    (hname : pyEndsWith name ".ptd" = true)
    (hmagic : file.drop (file.length - 20) = MAGIC_STR)
    (hlen : 24 ≤ file.length)
    (hoff : (file.length : Int) - 24 < unpack_i ((file.drop (file.length - 24)).take 4)) :
    ptd_reader file = .error .truncatedFile ∧
    gear_main decode name file = .error .truncatedFile := by
  have hr : ptd_reader file = .error .truncatedFile := by
    unfold ptd_reader
    rw [if_neg (by omega), if_neg (by simp [hmagic]), if_neg (by omega), if_pos (by omega)]
  refine ⟨hr, ?_⟩
  unfold gear_main
  rw [if_pos hname, hr]

/-- C3 witness: a 24-byte file (offset field 100, then the magic) fails
with the truncation error and yields no document. -/
theorem c3_oversized_offset_is_fatal_witness :
    ptd_reader (pack_i 100 ++ MAGIC_STR) = .error .truncatedFile ∧
    gear_main (fun _ => none) "scan.ptd" (pack_i 100 ++ MAGIC_STR) = .error .truncatedFile :=
  c3_oversized_offset_is_fatal (fun _ => none) "scan.ptd" (pack_i 100 ++ MAGIC_STR)
    (by decide) (by decide) (by decide) (by decide)

/-- C9: on a file of at least 20 bytes whose final 20 bytes are not the
magic string, the run stops at the magic check (`sys.exit(1)`, the spec's
`NotAContainerError`), for every decoder, and no output document is
written. -/
theorem c9_magic_mismatch_rejected (decode : List Nat → Option Dataset) (name : String)
    (file : List Nat)
    (hname : pyEndsWith name ".ptd" = true)
    (hlen : 20 ≤ file.length)
    (hmagic : file.drop (file.length - 20) ≠ MAGIC_STR) :
    ptd_reader file = .error .notAContainer ∧
    gear_main decode name file = .error .notAContainer := by
  have hr : ptd_reader file = .error .notAContainer := by
    unfold ptd_reader
    rw [if_neg (by omega), if_pos hmagic]
  refine ⟨hr, ?_⟩
  unfold gear_main
  rw [if_pos hname, hr]

/-- C9 witness: a 20-byte zero file is rejected as not a container. -/
theorem c9_magic_mismatch_rejected_witness :
    ptd_reader (List.replicate 20 0) = .error .notAContainer ∧
    gear_main (fun _ => none) "scan.ptd" (List.replicate 20 0) = .error .notAContainer :=
  c9_magic_mismatch_rejected (fun _ => none) "scan.ptd" (List.replicate 20 0)
    (by decide) (by decide) (by decide)

/-- Decoding the 4-byte little-endian encoding of `n < 2^31` gives `n`. -/
theorem unpack_pack_small {n : Nat} (h : n < 2147483648) : unpack_i (pack_i n) = (n : Int) := by
  unfold pack_i unpack_i
  simp only [List.getD]
  have hu : n % 256 + 256 * (n / 256 % 256) + 65536 * (n / 65536 % 256) +
      16777216 * (n / 16777216 % 256) = n := by omega
  rw [show ([n % 256, n / 256 % 256, n / 65536 % 256, n / 16777216 % 256].get? 0).getD 0 =
    n % 256 from rfl]
  rw [show ([n % 256, n / 256 % 256, n / 65536 % 256, n / 16777216 % 256].get? 1).getD 0 =
    n / 256 % 256 from rfl]
  rw [show ([n % 256, n / 256 % 256, n / 65536 % 256, n / 16777216 % 256].get? 2).getD 0 =
    n / 65536 % 256 from rfl]
  rw [show ([n % 256, n / 256 % 256, n / 65536 % 256, n / 16777216 % 256].get? 3).getD 0 =
    n / 16777216 % 256 from rfl]
  rw [hu, if_pos h]

/-- C4 (amended): for every header whose length fits in a signed 32-bit
offset (below `2^31`), locating the trailer in
`header ++ littleEndianLen4(len) ++ MAGIC` extracts exactly the header. -/
theorem c4_roundtrip (hdr : List Nat) (hlen : hdr.length < 2147483648) :
    ptd_reader (hdr ++ pack_i hdr.length ++ MAGIC_STR) = .ok hdr := by
  have hBlen : (hdr ++ pack_i hdr.length ++ MAGIC_STR).length = hdr.length + 24 := by
    simp [pack_i, MAGIC_STR]
  have hdrop20 : (hdr ++ pack_i hdr.length ++ MAGIC_STR).drop (hdr.length + 24 - 20) =
      MAGIC_STR := by
    rw [List.append_assoc, show hdr.length + 24 - 20 = hdr.length + 4 from by omega,
      List.drop_append]
    rfl
  have hslice : ((hdr ++ pack_i hdr.length ++ MAGIC_STR).drop (hdr.length + 24 - 24)).take 4 =
      pack_i hdr.length := by
    rw [List.append_assoc, show hdr.length + 24 - 24 = hdr.length + 0 from by omega,
      List.drop_append, List.drop_zero]
    rw [show (4 : Nat) = (pack_i hdr.length).length from rfl, List.take_left]
  unfold ptd_reader
  rw [hBlen]
  rw [if_neg (by omega), if_neg (fun hcon => hcon hdrop20), if_neg (by omega)]
  rw [hslice, unpack_pack_small hlen]
  dsimp only
  have h0 : ((hdr.length + 24 : Nat) : Int) - (hdr.length : Int) - 24 = 0 := by
    push_cast
    ring
  rw [h0]
  rw [if_neg (by omega), if_neg (by omega)]
  rw [show ((0 : Int)).toNat = 0 from rfl, List.drop_zero, Int.toNat_natCast,
    List.append_assoc, List.take_left]


/-- C4 counterexample: for a `2^31`-byte header the claim fails — the
signed offset decodes as `-2^31`, the backwards seek lands past the end of
the file, and `fp.read` returns nothing instead of the header. -/
theorem c4_counterexample :
    ptd_reader (big_header ++ pack_i big_header.length ++ MAGIC_STR) ≠ .ok big_header := by
  have hn : big_header.length = 2147483648 := by
    unfold big_header
    exact List.length_replicate _ _
  have hBlen : (big_header ++ pack_i big_header.length ++ MAGIC_STR).length
      = big_header.length + 24 := by
    rw [List.append_assoc, List.length_append]
    rw [show (pack_i big_header.length ++ MAGIC_STR).length = 24 from rfl]
  have hdrop20 : (big_header ++ pack_i big_header.length ++ MAGIC_STR).drop
      (big_header.length + 24 - 20) = MAGIC_STR := by
    rw [List.append_assoc, show big_header.length + 24 - 20 = big_header.length + 4 from by omega,
      List.drop_append]
    rfl
  have hslice : ((big_header ++ pack_i big_header.length ++ MAGIC_STR).drop
      (big_header.length + 24 - 24)).take 4 = pack_i big_header.length := by
    rw [List.append_assoc, show big_header.length + 24 - 24 = big_header.length + 0 from by omega,
      List.drop_append, List.drop_zero]
    rw [show (4 : Nat) = (pack_i big_header.length).length from rfl, List.take_left]
  have hunp : unpack_i (pack_i big_header.length) = -2147483648 := by
    rw [hn]
    decide
  unfold ptd_reader
  rw [hBlen]
  rw [if_neg (by omega), if_neg (fun hcon => hcon hdrop20), if_neg (by omega)]
  rw [hslice, hunp]
  dsimp only
  rw [if_neg (by push_cast; omega), if_pos (by norm_num)]
  have hX : (((big_header.length + 24 : Nat) : Int) - -2147483648 - 24).toNat = 4294967296 := by
    rw [hn]
    omega
  rw [hX]
  have hdropnil : (big_header ++ pack_i big_header.length ++ MAGIC_STR).drop 4294967296 = [] :=
    List.drop_eq_nil_of_le (by rw [hBlen, hn]; omega)
  rw [hdropnil]
  intro hcon
  simp only [Except.ok.injEq] at hcon
  rw [← hcon] at hn
  simp at hn

/-- C4 witness: the round trip at the concrete header `[1, 2, 3]`. -/
theorem c4_roundtrip_witness :
    ptd_reader ([1, 2, 3] ++ pack_i ([1, 2, 3] : List Nat).length ++ MAGIC_STR) =
      .ok [1, 2, 3] :=
  c4_roundtrip [1, 2, 3] (by decide)
